import Mathlib

/-!
Shallow embedding of the Modbus register decode/encode engine of
`src/modbus_wrapper/modbus_wrapper.py` (class `ModbusWrapper`).

Raw 16-bit register words are `Nat`, bits are `Bool`.  A transport read
returns `Option (List Nat)` / `Option (List Bool)`: `none` models a
response with `isError()` true.  A transport write returns `Bool`, `true`
meaning the response `isError()`.  Python dictionaries (register maps,
result sets, failure logs) are association lists in insertion order;
`dinsert` models `d[k] = v` (overwrite in place, else append).  Python
exceptions that the source does not catch are modelled by `Except Unit`
(`.error ()` = an uncaught exception such as IndexError).
-/

/-- A decoded register value as stored in the result dictionary:
Python ints, bools, lists of words, lists of bits, or restored strings. -/
inductive RegVal where
  | int (n : Int)
  | bool (b : Bool)
  | intList (l : List Nat)
  | boolList (l : List Bool)
  | str (s : String)
deriving DecidableEq, Repr

/-- Python treats `bool` as `int`: `True` is `1`, `False` is `0`. -/
def pyBoolInt (b : Bool) : Nat :=
  if b then 1 else 0

/-- The value as a Python integer, when Python would accept it as one. -/
def asPyInt : RegVal → Option Int
  | .int n => some n
  | .bool b => some (pyBoolInt b)
  | _ => none

/-- The value as a Python list of word values; iterating anything else in
the restorer raises TypeError. -/
def asPyWordList : RegVal → Option (List Nat)
  | .intList l => some l
  | .boolList l => some (l.map pyBoolInt)
  | _ => none

/-- Python `l[i]` on a list of strings: nonnegative indices from the front,
negative indices from the back, IndexError (`.error`) outside the range. -/
def pyListGetStr (l : List String) (i : Int) : Except Unit String :=
  if 0 ≤ i then
    match l.get? i.toNat with
    | some x => .ok x
    | none => .error ()
  else if i.natAbs ≤ l.length then
    match l.get? (l.length - i.natAbs) with
    | some x => .ok x
    | none => .error ()
  else .error ()

/-- Lowercase hex rendering of a nonnegative int, Python `format(n, 'x')`:
no padding, `0` renders as `"0"`. -/
def hexLower (n : Nat) : String :=
  String.mk (Nat.toDigits 16 n)

/-- Uppercase hex rendering, Python `format(n, 'X')`. -/
def hexUpper (n : Nat) : String :=
  String.mk ((Nat.toDigits 16 n).map Char.toUpper)

/-- Left-pad a string with zeros to width `w` (Python `0<w>` format spec). -/
def zeroPad (w : Nat) (s : String) : String :=
  if w ≤ s.length then s
  else String.mk (List.replicate (w - s.length) '0') ++ s

def pad2 (n : Nat) : String := zeroPad 2 (toString n)

def pad4 (n : Nat) : String := zeroPad 4 (toString n)

/-- Reverse of a string, Python `s[::-1]`. -/
def strReverse (s : String) : String :=
  String.mk s.data.reverse

/-- Python `chr(i)`: a one-character string for code points 0..0x10FFFF,
ValueError outside.  Python also accepts lone surrogates 0xD800..0xDFFF,
which a Lean `String` cannot hold; those are mapped to `.error` here (no
claim and no register in the repository reaches them). -/
def pyChr (i : Int) : Except Unit Char :=
  if i < 0 then .error ()
  else
    let n := i.toNat
    if n < 55296 then .ok (Char.ofNat n)
    else if 57344 ≤ n ∧ n < 1114112 then .ok (Char.ofNat n)
    else .error ()

/-- Value of one hex digit character, as `bytes.fromhex` accepts them. -/
def hexDigitVal : Char → Option Nat :=
  fun c =>
    if '0' ≤ c ∧ c ≤ '9' then some (c.toNat - '0'.toNat)
    else if 'a' ≤ c ∧ c ≤ 'f' then some (c.toNat - 'a'.toNat + 10)
    else if 'A' ≤ c ∧ c ≤ 'F' then some (c.toNat - 'A'.toNat + 10)
    else none

/-- Python `bytes.fromhex` on a string with no blanks: pairs of hex digits;
an odd-length or non-hex string raises ValueError (`none`). -/
def bytesFromHex : List Char → Option (List Nat)
  | [] => some []
  | [_] => none
  | a :: b :: rest =>
    match hexDigitVal a, hexDigitVal b, bytesFromHex rest with
    | some ha, some hb, some bs => some ((ha * 16 + hb) :: bs)
    | _, _, _ => none

/-- Python `bytes.decode("ASCII")`: strict, any byte over 127 raises. -/
def asciiDecode (bs : List Nat) : Option String :=
  if bs.all (fun b => b < 128) then some (String.mk (bs.map Char.ofNat))
  else none

/-- Gregorian civil date from a day count with day 0 = 1970-01-01
(the era-based conversion; result is (year, month, day)). -/
def civilFromDays (z0 : Int) : Int × Nat × Nat :=
  let z := z0 + 719468
  let era := Int.fdiv z 146097
  let doe := (z - era * 146097).toNat
  let yoe := (doe - doe / 1460 + doe / 36524 - doe / 146096) / 365
  let doy := doe - (365 * yoe + yoe / 4 - yoe / 100)
  let mp := (5 * doy + 2) / 153
  let d := doy - (153 * mp + 2) / 5 + 1
  let m := if mp < 10 then mp + 3 else mp - 9
  let y : Int := (yoe : Int) + era * 400 + (if m ≤ 2 then 1 else 0)
  (y, m, d)

/-- `(datetime(1970,1,1) + timedelta(days=days)).strftime("%Y-%m-%d")`:
ISO date of the epoch plus a day offset; `datetime` only covers years
1..9999, outside that range the addition raises OverflowError. -/
def dateFromEpochDays (days : Int) : Except Unit String :=
  if days < -719162 ∨ 2932896 < days then .error ()
  else
    let ymd := civilFromDays days
    .ok (pad4 ymd.1.toNat ++ "-" ++ pad2 ymd.2.1 ++ "-" ++ pad2 ymd.2.2)

/-- Python `str(timedelta(milliseconds=ms))`: normalized to
days / seconds / microseconds, printed as `[D day(s), ]H:MM:SS[.ffffff]`;
`timedelta` overflows past 999999999 days. -/
def timedeltaMsStr (ms : Int) : Except Unit String :=
  let totalUs := ms * 1000
  let usPerDay : Int := 86400000000
  let days := Int.fdiv totalUs usPerDay
  if 999999999 < days ∨ days < -999999999 then .error ()
  else
    let remUs := (totalUs - days * usPerDay).toNat
    let secs := remUs / 1000000
    let us := remUs % 1000000
    let hh := secs / 3600
    let mm := secs % 3600 / 60
    let ss := secs % 60
    let base := toString hh ++ ":" ++ pad2 mm ++ ":" ++ pad2 ss
    let base :=
      if days == 0 then base
      else toString days ++ " day" ++ (if days.natAbs == 1 then "" else "s")
        ++ ", " ++ base
    let base := if us == 0 then base else base ++ "." ++ zeroPad 6 (toString us)
    .ok base

/-- The FIRMWARE_VERSION_IREG rule: the upper 16 bits hold
`major*10000 + minor*100 + patch`; `int(x / y)` truncates toward zero,
which for the magnitudes involved (the high word is below 65536) agrees
with integer division. -/
def firmwareVersionStr (i : Int) : String :=
  let fw := Int.fdiv i 65536
  let fw0 := Int.tdiv fw 10000
  let fw1 := Int.tdiv (fw - fw0 * 10000) 100
  let fw2 := fw - fw0 * 10000 - fw1 * 100
  toString fw0 ++ "." ++ toString fw1 ++ "." ++ toString fw2

/-- The DIP_CONFIG_IREG rule: `"{0:010b}".format(value)[::-1]`, a 10-wide
zero-padded binary rendering, reversed (a sign, if any, counts toward the
width and is reversed along). -/
def dipConfigStr (i : Int) : String :=
  if 0 ≤ i then strReverse (zeroPad 10 (String.mk (Nat.toDigits 2 i.toNat)))
  else strReverse ("-" ++ zeroPad 9 (String.mk (Nat.toDigits 2 i.natAbs)))

/-- Consecutive pairs of a list, Python `zip(it, it)` on one iterator:
a trailing odd element is dropped. -/
def pairUp : List Nat → List (Nat × Nat)
  | a :: b :: rest => (a, b) :: pairUp rest
  | _ => []

/-- Two-character chunks of a character list, the MAC_ADDRESS_HREG
`val_str[i:i+2]` slicing (a trailing odd character stands alone). -/
def pairChunks : List Char → List String
  | [] => []
  | [a] => [String.mk [a]]
  | a :: b :: rest => String.mk [a, b] :: pairChunks rest

/-- `restore_human_readable_content(self, key, value)`: the fixed per-field
table mapping a register key and its decoded value to a display string;
`.error ()` models an uncaught Python exception (IndexError, TypeError,
ValueError, OverflowError), `.ok ""` is the final `return ''`. -/
def restore_human_readable_content (key : String) (value : RegVal) :
    Except Unit String :=
  if key = "CHARGING_STATE_IREG" then
    match asPyInt value with
    | some i => pyListGetStr ["A", "B", "C", "D", "E", "F", "unknown"] i
    | none => .error ()
  else if key = "COMMIT_SHA_IREG" then
    match asPyWordList value with
    | some l =>
      let unicode_chars_list :=
        l.flatMap (fun ele => [(ele >>> 8) &&& 255, ele &&& 255])
      .ok (String.mk (unicode_chars_list.map Char.ofNat))
    | none => .error ()
  else if key = "CREATION_DATE_IREG" then
    match asPyInt value with
    | some i => dateFromEpochDays i
    | none => .error ()
  else if key = "DEVICE_MAC_IREG" then
    match asPyWordList value with
    | some l => .ok (String.intercalate ":" (l.map hexLower))
    | none => .error ()
  else if key = "DEVICE_NAME_HREG" then
    match asPyWordList value with
    | some l =>
      let hex_str := String.join ((l.filter (fun ele => ele ≠ 0)).map hexLower)
      match bytesFromHex hex_str.data with
      | some bs =>
        match asciiDecode bs with
        | some s => .ok s
        | none => .error ()
      | none => .error ()
    | none => .error ()
  else if key = "DEVICE_UUID_IREG" then
    match asPyWordList value with
    | some l =>
      let device_uuid_list := (pairUp l).map (fun p => (p.1 <<< 16) ||| p.2)
      .ok (String.intercalate ", "
        (device_uuid_list.map (fun x => "0x" ++ hexLower x)))
    | none => .error ()
  else if key = "DIP_CONFIG_IREG" then
    match asPyInt value with
    | some i => .ok (dipConfigStr i)
    | none => .error ()
  else if key = "EV_STATUS_IREG" then
    match asPyInt value with
    | some i =>
      match pyChr i with
      | .ok c => .ok (String.mk [c])
      | .error e => .error e
    | none => .error ()
  else if key = "FIRMWARE_VERSION_IREG" then
    match asPyInt value with
    | some i => .ok (firmwareVersionStr i)
    | none => .error ()
  else if key = "MAC_ADDRESS_HREG" then
    match asPyWordList value with
    | some l =>
      let val_str := String.join (l.map hexUpper)
      .ok (String.intercalate ":" (pairChunks val_str.data))
    | none => .error ()
  else if key = "CHARGING_BEGIN_TIME_IREG" ∨ key = "CHARGING_DURATION_IREG"
      ∨ key = "CHARGING_END_TIME_IREG" ∨ key = "UPTIME_MS_IREG" then
    match asPyInt value with
    | some i => timedeltaMsStr i
    | none => .error ()
  else if key = "SERIAL_NUMBER_HREG" then
    match asPyWordList value with
    | some l =>
      let hex_str := String.join (l.map hexLower)
      match bytesFromHex hex_str.data with
      | some bs =>
        match asciiDecode bs with
        | some s => .ok s
        | none => .error ()
      | none => .error ()
    | none => .error ()
  else .ok ""

/-- One entry of a read register map: the fields `register`, `len`,
`description` and the optional `test` expectation value. -/
structure RegSpecR where
  register : Nat
  len : Nat
  description : String
  test : Option Int
deriving DecidableEq, Repr

/-- One entry of a holding-register write map: `register`, `val`, `len`. -/
structure WriteSpecR where
  register : Nat
  val : Int
  len : Nat
deriving DecidableEq, Repr

/-- One entry of a coil write map: `register` and the boolean `val`. -/
structure CoilWriteSpecR where
  register : Nat
  val : Bool
deriving DecidableEq, Repr

/-- Python `d[k] = v` on a dict kept as an insertion-ordered association
list: overwrite in place when the key exists, append otherwise. -/
def dinsert {α : Type} (k : String) (v : α) :
    List (String × α) → List (String × α)
  | [] => [(k, v)]
  | (k1, v1) :: rest =>
    if k1 = k then (k, v) :: rest else (k1, v1) :: dinsert k v rest

/-- Python `base.update(upd)`: assign every pair of `upd` in order. -/
def dict_update {α : Type} (base upd : List (String × α)) :
    List (String × α) :=
  upd.foldl (fun acc kv => dinsert kv.1 kv.2 acc) base

/-- Python `expected_val != register_val` for an int expectation against a
decoded value: ints (and bools, which are ints) compare numerically, a
list never equals an int. -/
def py_ne (expected : Int) (v : RegVal) : Bool :=
  match v with
  | .int n => expected != n
  | .bool b => expected != ((pyBoolInt b : Nat) : Int)
  | .intList _ => true
  | .boolList _ => true
  | .str _ => true

/-- Bit-bank decode (`read_coil_registers` / `read_ists_registers` body):
`bits[0]` when `count == 1` (IndexError on an empty response, `none`),
else the slice `bits[0:count]`. -/
def bit_decode : Nat → List Bool → Option RegVal
  | 1, [] => none
  | 1, b :: _ => some (.bool b)
  | count, bits => some (.boolList (bits.take count))

/-- Holding-register decode (`read_hregs_registers` body): `registers[0]`
when `count == 1`, else the slice `registers[0:count]`; there is no
two-word reconstruction in this bank. -/
def hreg_decode : Nat → List Nat → Option RegVal
  | 1, [] => none
  | 1, r :: _ => some (.int r)
  | count, registers => some (.intList (registers.take count))

/-- Input-register decode (`read_iregs_registers` body): `registers[0]`
when `count == 1`; `registers[0] << 16 | registers[1]` when `count == 2`
and exactly two words came back; else the slice `registers[0:count]`. -/
def ireg_decode : Nat → List Nat → Option RegVal
  | 1, [] => none
  | 1, r :: _ => some (.int r)
  | 2, [a, b] => some (.int (((a <<< 16) ||| b : Nat) : Int))
  | count, registers => some (.intList (registers.take count))

/-- The tail of one successful word-bank read iteration: try to restore a
human-readable form (a raised exception becomes `""`), store it under
`key + "_HUMAN"` when nonempty, store the raw value under `key`, then
count a mismatch when expectation checking asks for it. -/
def word_entry_tail (check : Bool) (key : String) (expected_val : Int)
    (register_val : RegVal) (counter : Nat)
    (content : List (String × RegVal)) : Nat × List (String × RegVal) :=
  let restored :=
    match restore_human_readable_content key register_val with
    | .ok s => s
    | .error _ => ""
  let content1 :=
    if restored = "" then content
    else dinsert (key ++ "_HUMAN") (RegVal.str restored) content
  let content2 := dinsert key register_val content1
  (if check && py_ne expected_val register_val && (expected_val != (-1 : Int))
    then counter + 1 else counter, content2)

/-- The mismatch-counter update of one successful bit-bank read iteration. -/
def bit_entry_tail (check : Bool) (expected_val : Int) (bit_val : RegVal)
    (counter : Nat) : Nat :=
  if check && py_ne expected_val bit_val && (expected_val != (-1 : Int))
    then counter + 1 else counter

/-- The `for key, val in modbus_registers.items()` loop of
`read_coil_registers`: an error response stores `False` and counts one
invalid register; a successful one stores the decoded bits and applies
the expectation check. -/
def read_coils_loop (read : Nat → Nat → Option (List Bool)) (check : Bool) :
    List (String × RegSpecR) → Nat → List (String × RegVal) →
    Except Unit (Nat × List (String × RegVal))
  | [], counter, content => .ok (counter, content)
  | kv :: rest, counter, content =>
    let key := kv.1
    let expected_val : Int := kv.2.test.getD 0
    match read kv.2.register kv.2.len with
    | none =>
      read_coils_loop read check rest (counter + 1)
        (dinsert key (RegVal.bool false) content)
    | some bits =>
      match bit_decode kv.2.len bits with
      | none => .error ()
      | some bit_val =>
        read_coils_loop read check rest
          (bit_entry_tail check expected_val bit_val counter)
          (dinsert key bit_val content)

/-- The loop of `read_ists_registers`: same shape as the coils loop, but
an error response stores `-1` (not `False`). -/
def read_ists_loop (read : Nat → Nat → Option (List Bool)) (check : Bool) :
    List (String × RegSpecR) → Nat → List (String × RegVal) →
    Except Unit (Nat × List (String × RegVal))
  | [], counter, content => .ok (counter, content)
  | kv :: rest, counter, content =>
    let key := kv.1
    let expected_val : Int := kv.2.test.getD 0
    match read kv.2.register kv.2.len with
    | none =>
      read_ists_loop read check rest (counter + 1)
        (dinsert key (RegVal.int (-1)) content)
    | some bits =>
      match bit_decode kv.2.len bits with
      | none => .error ()
      | some bit_val =>
        read_ists_loop read check rest
          (bit_entry_tail check expected_val bit_val counter)
          (dinsert key bit_val content)

/-- The loop of `read_hregs_registers`: an error response stores `-1` and
counts one invalid register; a successful one decodes, restores and
applies the expectation check. -/
def read_hregs_loop (read : Nat → Nat → Option (List Nat)) (check : Bool) :
    List (String × RegSpecR) → Nat → List (String × RegVal) →
    Except Unit (Nat × List (String × RegVal))
  | [], counter, content => .ok (counter, content)
  | kv :: rest, counter, content =>
    let key := kv.1
    let expected_val : Int := kv.2.test.getD 0
    match read kv.2.register kv.2.len with
    | none =>
      read_hregs_loop read check rest (counter + 1)
        (dinsert key (RegVal.int (-1)) content)
    | some registers =>
      match hreg_decode kv.2.len registers with
      | none => .error ()
      | some register_val =>
        let r := word_entry_tail check key expected_val register_val
          counter content
        read_hregs_loop read check rest r.1 r.2

/-- The loop of `read_iregs_registers`: an error response stores `False`
(not `-1`) and counts one invalid register; a successful one decodes
(with the two-word uint32 reconstruction), restores and applies the
expectation check. -/
def read_iregs_loop (read : Nat → Nat → Option (List Nat)) (check : Bool) :
    List (String × RegSpecR) → Nat → List (String × RegVal) →
    Except Unit (Nat × List (String × RegVal))
  | [], counter, content => .ok (counter, content)
  | kv :: rest, counter, content =>
    let key := kv.1
    let expected_val : Int := kv.2.test.getD 0
    match read kv.2.register kv.2.len with
    | none =>
      read_iregs_loop read check rest (counter + 1)
        (dinsert key (RegVal.bool false) content)
    | some registers =>
      match ireg_decode kv.2.len registers with
      | none => .error ()
      | some register_val =>
        let r := word_entry_tail check key expected_val register_val
          counter content
        read_iregs_loop read check rest r.1 r.2

/-- `read_coil_registers`: returns the invalid-register count and the
content dict. -/
def read_coil_registers (read : Nat → Nat → Option (List Bool))
    (modbus_registers : List (String × RegSpecR))
    (check_expectation : Bool) :
    Except Unit (Nat × List (String × RegVal)) :=
  read_coils_loop read check_expectation modbus_registers 0 []

/-- `read_ists_registers`. -/
def read_ists_registers (read : Nat → Nat → Option (List Bool))
    (modbus_registers : List (String × RegSpecR))
    (check_expectation : Bool) :
    Except Unit (Nat × List (String × RegVal)) :=
  read_ists_loop read check_expectation modbus_registers 0 []

/-- `read_hregs_registers`. -/
def read_hregs_registers (read : Nat → Nat → Option (List Nat))
    (modbus_registers : List (String × RegSpecR))
    (check_expectation : Bool) :
    Except Unit (Nat × List (String × RegVal)) :=
  read_hregs_loop read check_expectation modbus_registers 0 []

/-- `read_iregs_registers`. -/
def read_iregs_registers (read : Nat → Nat → Option (List Nat))
    (modbus_registers : List (String × RegSpecR))
    (check_expectation : Bool) :
    Except Unit (Nat × List (String × RegVal)) :=
  read_iregs_loop read check_expectation modbus_registers 0 []

/-- The loop of `write_hregs_registers`: a value over 65535 with
`count > 1` is split by `divmod(set_val, 65535)` into two writes at
`address` and `address + 1`; in the split branch `response` is
overwritten, so only the second write's response is checked.  Returns the
failed counter, the failure log, and the trace of emitted
`write_register` calls. -/
def write_hregs_loop (wreg : Nat → Int → Bool) :
    List (String × WriteSpecR) → Nat → List (String × Bool) →
    List (Nat × Int) → Nat × List (String × Bool) × List (Nat × Int)
  | [], counter, log, tr => (counter, log, tr)
  | kv :: rest, counter, log, tr =>
    let key := kv.1
    let set_val := kv.2.val
    if 65535 < set_val ∧ 1 < kv.2.len then
      let c := Int.fdiv set_val 65535
      let f := Int.fmod set_val 65535
      let _response_first := wreg kv.2.register c
      let response := wreg (kv.2.register + 1) f
      let tr1 := tr ++ [(kv.2.register, c), (kv.2.register + 1, f)]
      if response then
        write_hregs_loop wreg rest (counter + 1) (dinsert key false log) tr1
      else
        write_hregs_loop wreg rest counter log tr1
    else
      let response := wreg kv.2.register set_val
      let tr1 := tr ++ [(kv.2.register, set_val)]
      if response then
        write_hregs_loop wreg rest (counter + 1) (dinsert key false log) tr1
      else
        write_hregs_loop wreg rest counter log tr1

/-- `write_hregs_registers`: failed counter, failure log, emitted writes. -/
def write_hregs_registers (wreg : Nat → Int → Bool)
    (modbus_registers : List (String × WriteSpecR)) :
    Nat × List (String × Bool) × List (Nat × Int) :=
  write_hregs_loop wreg modbus_registers 0 [] []

/-- The loop of `write_coil_registers`: one `write_coil` per entry; an
error response logs the key as `False` and counts one failure. -/
def write_coil_loop (wcoil : Nat → Bool → Bool) :
    List (String × CoilWriteSpecR) → Nat → List (String × Bool) →
    List (Nat × Bool) → Nat × List (String × Bool) × List (Nat × Bool)
  | [], counter, log, tr => (counter, log, tr)
  | kv :: rest, counter, log, tr =>
    let key := kv.1
    let set_val := kv.2.val
    let response := wcoil kv.2.register set_val
    let tr1 := tr ++ [(kv.2.register, set_val)]
    if response then
      write_coil_loop wcoil rest (counter + 1) (dinsert key false log) tr1
    else
      write_coil_loop wcoil rest counter log tr1

/-- `write_coil_registers`: failed counter, failure log, emitted writes. -/
def write_coil_registers (wcoil : Nat → Bool → Bool)
    (modbus_registers : List (String × CoilWriteSpecR)) :
    Nat × List (String × Bool) × List (Nat × Bool) :=
  write_coil_loop wcoil modbus_registers 0 [] []

/-- The transport client: `connect()`'s result, the four read primitives
(`none` = error response) and the two write primitives (`true` = error
response).  `close()` returns Python `None`. -/
structure ModbusTransport where
  connectResult : Bool
  readCoilsT : Nat → Nat → Option (List Bool)
  readDiscreteInputsT : Nat → Nat → Option (List Bool)
  readHoldingT : Nat → Nat → Option (List Nat)
  readInputT : Nat → Nat → Option (List Nat)
  writeCoilT : Nat → Bool → Bool
  writeRegisterT : Nat → Int → Bool

/-- A connection-lifecycle call the walker makes on the client. -/
inductive LifeEvent where
  | connectEvent
  | closeEvent
deriving DecidableEq, Repr

/-- A register map file: the four optional banks, each an insertion-ordered
dict of entries. -/
structure RegisterMapR where
  COILS : Option (List (String × RegSpecR))
  HREGS : Option (List (String × RegSpecR))
  ISTS : Option (List (String × RegSpecR))
  IREGS : Option (List (String × RegSpecR))

/-- A write register map file: the two writable banks, plus presence flags
for the two read-only banks (which `write_all_registers` only logs). -/
structure WriteRegisterMapR where
  COILSW : Option (List (String × CoilWriteSpecR))
  HREGSW : Option (List (String × WriteSpecR))
  ISTSpresent : Bool
  IREGSpresent : Bool

/-- Outcome of `read_all_registers`: the merged content dict, the final
`self._connection` value (`none` = Python `None`), and the connect/close
calls made on the client. -/
structure ReadAllResult where
  content : List (String × RegVal)
  conn : Option Bool
  events : List LifeEvent
deriving Repr

/-- Outcome of `write_all_registers`. -/
structure WriteAllResult where
  log : List (String × Bool)
  conn : Option Bool
  events : List LifeEvent
deriving Repr

/-- One bank step of `read_all_registers`: skip an absent bank, else read
it, add its invalid count and merge its content (an uncaught exception
propagates). -/
def bank_read_fold (res : Except Unit (Nat × List (String × RegVal)))
    (bank : Option (List (String × RegSpecR)))
    (reader : List (String × RegSpecR) →
      Except Unit (Nat × List (String × RegVal))) :
    Except Unit (Nat × List (String × RegVal)) :=
  match res, bank with
  | .error e, _ => .error e
  | .ok acc, none => .ok acc
  | .ok acc, some regs =>
    match reader regs with
    | .error e => .error e
    | .ok r => .ok (acc.1 + r.1, dict_update acc.2 r.2)

/-- The bank walk of `read_all_registers`, in the fixed order COILS,
HREGS, ISTS, IREGS. -/
def read_all_banks (client : ModbusTransport) (m : RegisterMapR)
    (check : Bool) : Except Unit (Nat × List (String × RegVal)) :=
  bank_read_fold (bank_read_fold (bank_read_fold (bank_read_fold
    (.ok (0, []))
    m.COILS (fun regs => read_coil_registers client.readCoilsT regs check))
    m.HREGS (fun regs => read_hregs_registers client.readHoldingT regs check))
    m.ISTS (fun regs => read_ists_registers client.readDiscreteInputsT regs check))
    m.IREGS (fun regs => read_iregs_registers client.readInputT regs check)

/-- Whether any present bank of the map has at least one entry (reading
such an entry touches `self.client`, which crashes when it is `None`). -/
def map_has_entries (m : RegisterMapR) : Bool :=
  (match m.COILS with | some (_ :: _) => true | _ => false) ||
  (match m.HREGS with | some (_ :: _) => true | _ => false) ||
  (match m.ISTS with | some (_ :: _) => true | _ => false) ||
  (match m.IREGS with | some (_ :: _) => true | _ => false)

/-- `read_all_registers(check_expectation, file)`: only the literal
connection value `False` triggers the reconnect path (`None` does not);
the walk ends with `self.disconnect()`, which with a client present calls
`client.close()` and leaves `self._connection = None`. -/
def read_all_registers (hasClient : Bool) (client : ModbusTransport)
    (conn0 : Option Bool) (m : RegisterMapR) (check : Bool) :
    Except Unit ReadAllResult :=
  if conn0 = some false then
    if hasClient = false then
      .ok { content := [], conn := conn0, events := [] }
    else
      let conn1 : Option Bool := some client.connectResult
      if conn1 = some false then
        .ok { content := [], conn := conn1,
              events := [LifeEvent.connectEvent] }
      else
        match read_all_banks client m check with
        | .error e => .error e
        | .ok r =>
          .ok { content := r.2, conn := none,
                events := [LifeEvent.connectEvent, LifeEvent.closeEvent] }
  else
    if hasClient = false then
      if map_has_entries m then .error ()
      else .ok { content := [], conn := conn0, events := [] }
    else
      match read_all_banks client m check with
      | .error e => .error e
      | .ok r =>
        .ok { content := r.2, conn := none, events := [LifeEvent.closeEvent] }

/-- `write_all_registers(file)`: same connection guard and final
`self.disconnect()`; only COILS and HREGS are written, ISTS and IREGS are
skipped with a log line. -/
def write_all_registers (hasClient : Bool) (client : ModbusTransport)
    (conn0 : Option Bool) (m : WriteRegisterMapR) :
    Except Unit WriteAllResult :=
  let banks : Except Unit (List (String × Bool)) :=
    if hasClient = false ∧
        ((match m.COILSW with | some (_ :: _) => true | _ => false) ||
         (match m.HREGSW with | some (_ :: _) => true | _ => false)) then
      .error ()
    else
      let logC :=
        match m.COILSW with
        | none => []
        | some regs => (write_coil_registers client.writeCoilT regs).2.1
      let logH :=
        match m.HREGSW with
        | none => []
        | some regs => (write_hregs_registers client.writeRegisterT regs).2.1
      .ok (dict_update logC logH)
  if conn0 = some false then
    if hasClient = false then
      .ok { log := [], conn := conn0, events := [] }
    else
      let conn1 : Option Bool := some client.connectResult
      if conn1 = some false then
        .ok { log := [], conn := conn1, events := [LifeEvent.connectEvent] }
      else
        match banks with
        | .error e => .error e
        | .ok log =>
          .ok { log := log, conn := none,
                events := [LifeEvent.connectEvent, LifeEvent.closeEvent] }
  else
    if hasClient = false then
      match banks with
      | .error e => .error e
      | .ok log => .ok { log := log, conn := conn0, events := [] }
    else
      match banks with
      | .error e => .error e
      | .ok log =>
        .ok { log := log, conn := none, events := [LifeEvent.closeEvent] }

lemma lookup_dinsert_self {α : Type} (k : String) (v : α)
    (l : List (String × α)) : List.lookup k (dinsert k v l) = some v := by
  induction l with
  | nil => simp [dinsert, List.lookup]
  | cons hd tl ih =>
    obtain ⟨k1, v1⟩ := hd
    by_cases h : k1 = k
    · simp [dinsert, h, List.lookup]
    · simp only [dinsert, if_neg h, List.lookup]
      have hne : (k == k1) = false := by
        simp [beq_eq_false_iff_ne]
        exact fun hk => h hk.symm
      simp [hne, ih]

lemma lookup_dinsert_ne {α : Type} (k1 k : String) (v : α)
    (l : List (String × α)) (hne : k1 ≠ k) :
    List.lookup k1 (dinsert k v l) = List.lookup k1 l := by
  induction l with
  | nil =>
    have hbe : (k1 == k) = false := beq_eq_false_iff_ne.mpr hne
    simp [dinsert, List.lookup, hbe]
  | cons hd tl ih =>
    obtain ⟨k2, v2⟩ := hd
    by_cases h : k2 = k
    · subst h
      have hbe : (k1 == k2) = false := beq_eq_false_iff_ne.mpr hne
      simp [dinsert, List.lookup, hbe]
    · simp only [dinsert, if_neg h, List.lookup]
      cases hbe : (k1 == k2) <;> simp [hbe, ih]

lemma dinsert_of_lookup_none {α : Type} (k : String) (v : α)
    (l : List (String × α)) (h : List.lookup k l = none) :
    dinsert k v l = l ++ [(k, v)] := by
  induction l with
  | nil => simp [dinsert]
  | cons hd tl ih =>
    obtain ⟨k1, v1⟩ := hd
    simp only [List.lookup] at h
    cases hbe : (k == k1) with
    | true => simp [hbe] at h
    | false =>
      simp only [hbe] at h
      have hne : k1 ≠ k := by
        have := (beq_eq_false_iff_ne (a := k) (b := k1)).mp hbe
        exact fun hk => this hk.symm
      simp [dinsert, if_neg hne, ih h]

lemma lookup_append_none {α : Type} (k : String)
    (l1 l2 : List (String × α)) (h : List.lookup k l1 = none) :
    List.lookup k (l1 ++ l2) = List.lookup k l2 := by
  induction l1 with
  | nil => simp
  | cons hd tl ih =>
    obtain ⟨k1, v1⟩ := hd
    simp only [List.lookup] at h ⊢
    cases hbe : (k == k1) with
    | true => simp [hbe] at h
    | false =>
      simp only [hbe] at h ⊢
      exact ih h

lemma self_ne_append_human (k : String) : k ≠ k ++ "_HUMAN" := by
  intro h
  have hlen := congrArg String.length h
  rw [String.length_append] at hlen
  have : ("_HUMAN" : String).length = 6 := by decide
  omega

/-- The `write_register` calls one holding-register entry emits: two
(`divmod(set_val, 65535)` at `address` and `address + 1`) when the value
exceeds 65535 and `len > 1`, else a single write of the value. -/
def hreg_entry_writes (s : WriteSpecR) : List (Nat × Int) :=
  if 65535 < s.val ∧ 1 < s.len then
    [(s.register, Int.fdiv s.val 65535),
     (s.register + 1, Int.fmod s.val 65535)]
  else [(s.register, s.val)]

/-- Whether the transport reports an error for the last write an entry
emits — the only response `write_hregs_registers` inspects. -/
def hreg_last_write_error (wreg : Nat → Int → Bool) (s : WriteSpecR) :
    Bool :=
  if 65535 < s.val ∧ 1 < s.len then
    wreg (s.register + 1) (Int.fmod s.val 65535)
  else wreg s.register s.val

lemma write_hregs_loop_cons (wreg : Nat → Int → Bool)
    (kv : String × WriteSpecR) (rest : List (String × WriteSpecR))
    (c : Nat) (log : List (String × Bool)) (tr : List (Nat × Int)) :
    write_hregs_loop wreg (kv :: rest) c log tr =
      write_hregs_loop wreg rest
        (if hreg_last_write_error wreg kv.2 then c + 1 else c)
        (if hreg_last_write_error wreg kv.2 then dinsert kv.1 false log
          else log)
        (tr ++ hreg_entry_writes kv.2) := by
  by_cases hc : 65535 < kv.2.val ∧ 1 < kv.2.len
  · simp only [write_hregs_loop, hreg_last_write_error, hreg_entry_writes,
      if_pos hc]
    cases hw : wreg (kv.2.register + 1) (Int.fmod kv.2.val 65535) <;>
      simp [hw]
  · simp only [write_hregs_loop, hreg_last_write_error, hreg_entry_writes,
      if_neg hc]
    cases hw : wreg kv.2.register kv.2.val <;> simp [hw]

lemma write_hregs_loop_trace (wreg : Nat → Int → Bool) :
    ∀ (regs : List (String × WriteSpecR)) (c : Nat)
      (log : List (String × Bool)) (tr : List (Nat × Int)),
    (write_hregs_loop wreg regs c log tr).2.2 =
      tr ++ regs.flatMap (fun kv => hreg_entry_writes kv.2) := by
  intro regs
  induction regs with
  | nil => intro c log tr; simp [write_hregs_loop]
  | cons kv rest ih =>
    intro c log tr
    rw [write_hregs_loop_cons, ih, List.flatMap_cons, ← List.append_assoc]

lemma write_hregs_loop_full (wreg : Nat → Int → Bool) :
    ∀ (regs : List (String × WriteSpecR)) (c : Nat)
      (log : List (String × Bool)) (tr : List (Nat × Int)),
    (∀ k, k ∈ regs.map Prod.fst → List.lookup k log = none) →
    (regs.map Prod.fst).Nodup →
    write_hregs_loop wreg regs c log tr =
      (c + (regs.filter (fun kv => hreg_last_write_error wreg kv.2)).length,
       log ++ regs.filterMap (fun kv =>
         if hreg_last_write_error wreg kv.2 then some (kv.1, false)
         else none),
       tr ++ regs.flatMap (fun kv => hreg_entry_writes kv.2)) := by
  intro regs
  induction regs with
  | nil => intro c log tr _ _; simp [write_hregs_loop]
  | cons kv rest ih =>
    intro c log tr hfresh hnd
    have hl : List.lookup kv.1 log = none := hfresh kv.1 (by simp)
    simp only [List.map_cons, List.nodup_cons] at hnd
    have hfresh2 : ∀ k, k ∈ rest.map Prod.fst →
        List.lookup k (log ++ [(kv.1, false)]) = none := by
      intro k hk
      have hkne : k ≠ kv.1 := fun he => hnd.1 (he ▸ hk)
      rw [lookup_append_none k log _ (hfresh k (by simp [hk]))]
      simp [List.lookup, beq_eq_false_iff_ne.mpr hkne]
    rw [write_hregs_loop_cons]
    cases hlast : hreg_last_write_error wreg kv.2 with
    | true =>
      rw [if_pos rfl, if_pos rfl, dinsert_of_lookup_none _ _ _ hl,
        ih (c + 1) _ _ hfresh2 hnd.2]
      simp [List.filter_cons, List.filterMap_cons, List.flatMap_cons, hlast]
      omega
    | false =>
      rw [if_neg (by simp), if_neg (by simp), ih c _ _
        (fun k hk => hfresh k (by simp [hk])) hnd.2]
      simp [List.filter_cons, List.filterMap_cons, List.flatMap_cons, hlast]

lemma write_coil_loop_cons (wcoil : Nat → Bool → Bool)
    (kv : String × CoilWriteSpecR) (rest : List (String × CoilWriteSpecR))
    (c : Nat) (log : List (String × Bool)) (tr : List (Nat × Bool)) :
    write_coil_loop wcoil (kv :: rest) c log tr =
      write_coil_loop wcoil rest
        (if wcoil kv.2.register kv.2.val then c + 1 else c)
        (if wcoil kv.2.register kv.2.val then dinsert kv.1 false log
          else log)
        (tr ++ [(kv.2.register, kv.2.val)]) := by
  cases hw : wcoil kv.2.register kv.2.val <;>
    simp [write_coil_loop, hw]

lemma write_coil_loop_full (wcoil : Nat → Bool → Bool) :
    ∀ (regs : List (String × CoilWriteSpecR)) (c : Nat)
      (log : List (String × Bool)) (tr : List (Nat × Bool)),
    (∀ k, k ∈ regs.map Prod.fst → List.lookup k log = none) →
    (regs.map Prod.fst).Nodup →
    write_coil_loop wcoil regs c log tr =
      (c + (regs.filter (fun kv => wcoil kv.2.register kv.2.val)).length,
       log ++ regs.filterMap (fun kv =>
         if wcoil kv.2.register kv.2.val then some (kv.1, false) else none),
       tr ++ regs.map (fun kv => (kv.2.register, kv.2.val))) := by
  intro regs
  induction regs with
  | nil => intro c log tr _ _; simp [write_coil_loop]
  | cons kv rest ih =>
    intro c log tr hfresh hnd
    have hl : List.lookup kv.1 log = none := hfresh kv.1 (by simp)
    simp only [List.map_cons, List.nodup_cons] at hnd
    have hfresh2 : ∀ k, k ∈ rest.map Prod.fst →
        List.lookup k (log ++ [(kv.1, false)]) = none := by
      intro k hk
      have hkne : k ≠ kv.1 := fun he => hnd.1 (he ▸ hk)
      rw [lookup_append_none k log _ (hfresh k (by simp [hk]))]
      simp [List.lookup, beq_eq_false_iff_ne.mpr hkne]
    rw [write_coil_loop_cons]
    cases hlast : wcoil kv.2.register kv.2.val with
    | true =>
      rw [if_pos rfl, if_pos rfl, dinsert_of_lookup_none _ _ _ hl,
        ih (c + 1) _ _ hfresh2 hnd.2]
      simp [List.filter_cons, List.filterMap_cons, hlast]
      omega
    | false =>
      rw [if_neg (by simp), if_neg (by simp), ih c _ _
        (fun k hk => hfresh k (by simp [hk])) hnd.2]
      simp [List.filter_cons, List.filterMap_cons, hlast]

lemma lookup_word_entry_tail_self (check : Bool) (k : String) (e : Int)
    (v : RegVal) (c : Nat) (ct : List (String × RegVal)) :
    List.lookup k (word_entry_tail check k e v c ct).2 = some v := by
  simp only [word_entry_tail]
  exact lookup_dinsert_self k v _

/-- C1, counterexample: a holding register (HREGS) of length 2 whose
transport read succeeds with the two raw words `[1, 2]` is stored as the
raw list `[1, 2]`, not as the big-endian composition `65538`. -/
theorem c1_counterexample :
    read_hregs_registers (fun _ _ => some [1, 2])
      [("K", { register := 0, len := 2, description := "", test := none })]
      false = .ok (0, [("K", RegVal.intList [1, 2])])
    ∧ RegVal.intList [1, 2] ≠ RegVal.int 65538 := by
  exact ⟨rfl, by decide⟩

/-- C1, amended: only the input-register bank (IREGS) reconstructs a
length-2 register from a successful two-word response as
`(rawWords[0] << 16) | rawWords[1]`; the holding-register bank (HREGS)
stores the raw two-word list instead. -/
theorem c1_amended_two_word_decode (read : Nat → Nat → Option (List Nat))
    (check : Bool) (k : String) (s : RegSpecR)
    (rest : List (String × RegSpecR)) (c0 : Nat)
    (ct : List (String × RegVal)) (a b : Nat)
    (hlen : s.len = 2) (hresp : read s.register 2 = some [a, b]) :
    (∃ c1 ct1,
      read_iregs_loop read check ((k, s) :: rest) c0 ct =
        read_iregs_loop read check rest c1 ct1 ∧
      List.lookup k ct1 = some (RegVal.int (((a <<< 16) ||| b : Nat) : Int)))
    ∧ (∃ c1 ct1,
      read_hregs_loop read check ((k, s) :: rest) c0 ct =
        read_hregs_loop read check rest c1 ct1 ∧
      List.lookup k ct1 = some (RegVal.intList [a, b])) := by
  constructor
  · refine ⟨(word_entry_tail check k (s.test.getD 0)
        (RegVal.int (((a <<< 16) ||| b : Nat) : Int)) c0 ct).1,
      (word_entry_tail check k (s.test.getD 0)
        (RegVal.int (((a <<< 16) ||| b : Nat) : Int)) c0 ct).2, ?_, ?_⟩
    · simp [read_iregs_loop, hlen, hresp, ireg_decode]
    · exact lookup_word_entry_tail_self check k (s.test.getD 0) _ c0 ct
  · refine ⟨(word_entry_tail check k (s.test.getD 0)
        (RegVal.intList [a, b]) c0 ct).1,
      (word_entry_tail check k (s.test.getD 0)
        (RegVal.intList [a, b]) c0 ct).2, ?_, ?_⟩
    · simp [read_hregs_loop, hlen, hresp, hreg_decode]
    · exact lookup_word_entry_tail_self check k (s.test.getD 0) _ c0 ct

/-- C1, witness for the amended theorem at a concrete input. -/
theorem c1_amended_two_word_decode_witness :
    (∃ c1 ct1,
      read_iregs_loop (fun _ _ => some [1, 2]) false
          [("K", { register := 0, len := 2, description := "",
                   test := none })] 0 [] =
        read_iregs_loop (fun _ _ => some [1, 2]) false [] c1 ct1 ∧
      List.lookup "K" ct1 = some (RegVal.int 65538))
    ∧ (∃ c1 ct1,
      read_hregs_loop (fun _ _ => some [1, 2]) false
          [("K", { register := 0, len := 2, description := "",
                   test := none })] 0 [] =
        read_hregs_loop (fun _ _ => some [1, 2]) false [] c1 ct1 ∧
      List.lookup "K" ct1 = some (RegVal.intList [1, 2])) :=
  c1_amended_two_word_decode (fun _ _ => some [1, 2]) false "K"
    { register := 0, len := 2, description := "", test := none }
    [] 0 [] 1 2 rfl rfl

/-- C2, counterexample: an error response on a discrete-input (ISTS,
bit-kind) register stores the sentinel `-1`, not boolean `false`, and an
error response on an input register (IREGS, word-kind) stores `False`,
not `-1`. -/
theorem c2_counterexample :
    read_ists_registers (fun _ _ => none)
      [("K", { register := 0, len := 1, description := "", test := none })]
      false = .ok (1, [("K", RegVal.int (-1))])
    ∧ RegVal.int (-1) ≠ RegVal.bool false
    ∧ read_iregs_registers (fun _ _ => none)
      [("K", { register := 0, len := 1, description := "", test := none })]
      false = .ok (1, [("K", RegVal.bool false)])
    ∧ RegVal.bool false ≠ RegVal.int (-1) := by
  exact ⟨rfl, by decide, rfl, by decide⟩

/-- C2, amended: on a transport error response the stored sentinel is
boolean `false` for COILS and for IREGS, and `-1` for ISTS and for HREGS
(the bit/word pairing of the claim holds only for COILS and HREGS); in
every bank the mismatch counter increases by exactly one for that
register, independent of the expectation-check flag, and the walk
continues with the remaining registers. -/
theorem c2_amended_error_sentinels
    (readB : Nat → Nat → Option (List Bool))
    (readW : Nat → Nat → Option (List Nat)) (check : Bool) (k : String)
    (s : RegSpecR) (rest : List (String × RegSpecR)) (c0 : Nat)
    (ct : List (String × RegVal))
    (hB : readB s.register s.len = none)
    (hW : readW s.register s.len = none) :
    read_coils_loop readB check ((k, s) :: rest) c0 ct =
      read_coils_loop readB check rest (c0 + 1)
        (dinsert k (RegVal.bool false) ct)
    ∧ read_ists_loop readB check ((k, s) :: rest) c0 ct =
      read_ists_loop readB check rest (c0 + 1)
        (dinsert k (RegVal.int (-1)) ct)
    ∧ read_hregs_loop readW check ((k, s) :: rest) c0 ct =
      read_hregs_loop readW check rest (c0 + 1)
        (dinsert k (RegVal.int (-1)) ct)
    ∧ read_iregs_loop readW check ((k, s) :: rest) c0 ct =
      read_iregs_loop readW check rest (c0 + 1)
        (dinsert k (RegVal.bool false) ct) := by
  refine ⟨?_, ?_, ?_, ?_⟩ <;>
    simp [read_coils_loop, read_ists_loop, read_hregs_loop,
      read_iregs_loop, hB, hW]

/-- C2, witness for the amended theorem at a concrete input. -/
theorem c2_amended_error_sentinels_witness :
    read_coils_loop (fun _ _ => none) true
        [("K", { register := 3, len := 1, description := "",
                 test := none })] 0 [] =
      read_coils_loop (fun _ _ => none) true [] 1
        (dinsert "K" (RegVal.bool false) [])
    ∧ read_ists_loop (fun _ _ => none) true
        [("K", { register := 3, len := 1, description := "",
                 test := none })] 0 [] =
      read_ists_loop (fun _ _ => none) true [] 1
        (dinsert "K" (RegVal.int (-1)) [])
    ∧ read_hregs_loop (fun _ _ => none) true
        [("K", { register := 3, len := 1, description := "",
                 test := none })] 0 [] =
      read_hregs_loop (fun _ _ => none) true [] 1
        (dinsert "K" (RegVal.int (-1)) [])
    ∧ read_iregs_loop (fun _ _ => none) true
        [("K", { register := 3, len := 1, description := "",
                 test := none })] 0 [] =
      read_iregs_loop (fun _ _ => none) true [] 1
        (dinsert "K" (RegVal.bool false) []) :=
  c2_amended_error_sentinels (fun _ _ => none) (fun _ _ => none) true "K"
    { register := 3, len := 1, description := "", test := none }
    [] 0 [] rfl rfl

/-- C3: the `write_register` calls a holding-register write cycle emits
are, per entry and in order: for `writeValue > 65535` and `length > 1`
exactly the two writes `(address, writeValue div 65535)` then
`(address + 1, writeValue mod 65535)`, otherwise exactly the single
write `(address, writeValue)`. -/
theorem c3_hreg_write_split (wreg : Nat → Int → Bool)
    (regs : List (String × WriteSpecR)) :
    (write_hregs_registers wreg regs).2.2 =
      regs.flatMap (fun kv => hreg_entry_writes kv.2) := by
  unfold write_hregs_registers
  rw [write_hregs_loop_trace]
  simp

/-- C4, counterexample: for the split write `val = 70000`, `len = 2` at
address 0, a transport that errors exactly on the first emitted write
(address 0) leaves the failure log empty and the failure counter at zero,
because only the second write's response is inspected — yet an emitted
write of that entry did return an error. -/
theorem c4_counterexample :
    (write_hregs_registers (fun a _ => a = 0)
        [("A", { register := 0, val := 70000, len := 2 })]) =
      (0, [], [(0, 1), (1, 4465)])
    ∧ (fun (a : Nat) (_ : Int) => decide (a = 0)) 0 1 = true
    ∧ List.lookup "A"
        (write_hregs_registers (fun a _ => a = 0)
          [("A", { register := 0, val := 70000, len := 2 })]).2.1 =
        none := by
  exact ⟨rfl, by decide, rfl⟩

/-- C4, amended: an entry's register key is recorded as `false` in the
failure log (and the failure counter incremented) exactly when the LAST
transport write emitted for that entry returns an error — for a split
holding-register write only the second response is checked, a failed
first write alone is not recorded — and every entry of the bank emits
its writes regardless of earlier failures (one failed write never aborts
the walk). -/
theorem c4_amended_write_failure_log (wreg : Nat → Int → Bool)
    (wcoil : Nat → Bool → Bool) (regsH : List (String × WriteSpecR))
    (regsC : List (String × CoilWriteSpecR))
    (hH : (regsH.map Prod.fst).Nodup)
    (hC : (regsC.map Prod.fst).Nodup) :
    write_hregs_registers wreg regsH =
      ((regsH.filter (fun kv => hreg_last_write_error wreg kv.2)).length,
       regsH.filterMap (fun kv =>
         if hreg_last_write_error wreg kv.2 then some (kv.1, false)
         else none),
       regsH.flatMap (fun kv => hreg_entry_writes kv.2))
    ∧ write_coil_registers wcoil regsC =
      ((regsC.filter (fun kv => wcoil kv.2.register kv.2.val)).length,
       regsC.filterMap (fun kv =>
         if wcoil kv.2.register kv.2.val then some (kv.1, false)
         else none),
       regsC.map (fun kv => (kv.2.register, kv.2.val))) := by
  constructor
  · unfold write_hregs_registers
    rw [write_hregs_loop_full wreg regsH 0 [] [] (fun _ _ => rfl) hH]
    simp
  · unfold write_coil_registers
    rw [write_coil_loop_full wcoil regsC 0 [] [] (fun _ _ => rfl) hC]
    simp

/-- C4, witness for the amended theorem at a concrete input. -/
theorem c4_amended_write_failure_log_witness :
    write_hregs_registers (fun a _ => a = 1)
        [("A", { register := 0, val := 70000, len := 2 }),
         ("B", { register := 9, val := 5, len := 1 })] =
      (1, [("A", false)], [(0, 1), (1, 4465), (9, 5)])
    ∧ write_coil_registers (fun a _ => a = 4)
        [("C", { register := 4, val := true }),
         ("D", { register := 5, val := false })] =
      (1, [("C", false)], [(4, true), (5, false)]) :=
  c4_amended_write_failure_log (fun a _ => a = 1) (fun a _ => a = 4)
    [("A", { register := 0, val := 70000, len := 2 }),
     ("B", { register := 9, val := 5, len := 1 })]
    [("C", { register := 4, val := true }),
     ("D", { register := 5, val := false })]
    (by decide) (by decide)

/-- C5: with expectation checking on, a successfully read and decoded
register with a declared `test` value counts exactly one mismatch when
the expected value differs from the decoded value (and is not the `-1`
wildcard), and none otherwise — in particular never for `test = -1`;
the walk then continues with the remaining registers. -/
theorem c5_mismatch_accounting (read : Nat → Nat → Option (List Nat))
    (k : String) (s : RegSpecR) (rest : List (String × RegSpecR))
    (c0 : Nat) (ct : List (String × RegVal)) (e : Int) (ws : List Nat)
    (htest : s.test = some e) (hresp : read s.register s.len = some ws) :
    (∀ v, hreg_decode s.len ws = some v → ∃ ct1,
      read_hregs_loop read true ((k, s) :: rest) c0 ct =
        read_hregs_loop read true rest
          (if py_ne e v && (e != (-1 : Int)) then c0 + 1 else c0) ct1)
    ∧ (∀ v, ireg_decode s.len ws = some v → ∃ ct1,
      read_iregs_loop read true ((k, s) :: rest) c0 ct =
        read_iregs_loop read true rest
          (if py_ne e v && (e != (-1 : Int)) then c0 + 1 else c0) ct1) := by
  constructor
  · intro v hv
    exact ⟨(word_entry_tail true k e v c0 ct).2,
      by simp [read_hregs_loop, hresp, hv, htest, word_entry_tail]⟩
  · intro v hv
    exact ⟨(word_entry_tail true k e v c0 ct).2,
      by simp [read_iregs_loop, hresp, hv, htest, word_entry_tail]⟩

/-- C5, witness: expected 5 against a read of 7 counts one mismatch;
expected -1 (wildcard) against the same read counts none. -/
theorem c5_mismatch_accounting_witness :
    (∃ ct1,
      read_hregs_loop (fun _ _ => some [7]) true
          [("K", { register := 0, len := 1, description := "",
                   test := some 5 })] 0 [] =
        read_hregs_loop (fun _ _ => some [7]) true [] 1 ct1)
    ∧ (∃ ct1,
      read_iregs_loop (fun _ _ => some [7]) true
          [("W", { register := 0, len := 1, description := "",
                   test := some (-1) })] 0 [] =
        read_iregs_loop (fun _ _ => some [7]) true [] 0 ct1) :=
  ⟨(c5_mismatch_accounting (fun _ _ => some [7]) "K"
      { register := 0, len := 1, description := "", test := some 5 }
      [] 0 [] 5 [7] rfl rfl).1 (RegVal.int 7) rfl,
   (c5_mismatch_accounting (fun _ _ => some [7]) "W"
      { register := 0, len := 1, description := "", test := some (-1) }
      [] 0 [] (-1) [7] rfl rfl).2 (RegVal.int 7) rfl⟩

/-- C6: a register entry without a `test` field gets the default expected
value 0, so with expectation checking on, any successful read that
decodes to something other than 0 counts one mismatch even though no
expectation was declared. -/
theorem c6_default_expected_zero (read : Nat → Nat → Option (List Nat))
    (k : String) (s : RegSpecR) (rest : List (String × RegSpecR))
    (c0 : Nat) (ct : List (String × RegVal)) (ws : List Nat)
    (htest : s.test = none) (hresp : read s.register s.len = some ws) :
    (∀ v, hreg_decode s.len ws = some v → ∃ ct1,
      read_hregs_loop read true ((k, s) :: rest) c0 ct =
        read_hregs_loop read true rest
          (if py_ne 0 v then c0 + 1 else c0) ct1)
    ∧ (∀ v, ireg_decode s.len ws = some v → ∃ ct1,
      read_iregs_loop read true ((k, s) :: rest) c0 ct =
        read_iregs_loop read true rest
          (if py_ne 0 v then c0 + 1 else c0) ct1) := by
  constructor
  · intro v hv
    exact ⟨(word_entry_tail true k 0 v c0 ct).2,
      by simp [read_hregs_loop, hresp, hv, htest, word_entry_tail]⟩
  · intro v hv
    exact ⟨(word_entry_tail true k 0 v c0 ct).2,
      by simp [read_iregs_loop, hresp, hv, htest, word_entry_tail]⟩

/-- C6, witness: no `test` field, a read of 3 counts one mismatch. -/
theorem c6_default_expected_zero_witness :
    (∃ ct1,
      read_hregs_loop (fun _ _ => some [3]) true
          [("K", { register := 0, len := 1, description := "",
                   test := none })] 0 [] =
        read_hregs_loop (fun _ _ => some [3]) true [] 1 ct1)
    ∧ (∃ ct1,
      read_iregs_loop (fun _ _ => some [3]) true
          [("K", { register := 0, len := 1, description := "",
                   test := none })] 0 [] =
        read_iregs_loop (fun _ _ => some [3]) true [] 1 ct1) :=
  ⟨(c6_default_expected_zero (fun _ _ => some [3]) "K"
      { register := 0, len := 1, description := "", test := none }
      [] 0 [] [3] rfl rfl).1 (RegVal.int 3) rfl,
   (c6_default_expected_zero (fun _ _ => some [3]) "K"
      { register := 0, len := 1, description := "", test := none }
      [] 0 [] [3] rfl rfl).2 (RegVal.int 3) rfl⟩

/-- C9: when the human-readable restorer raises on a decoded value, the
exception is caught for that field: the raw decoded value is still stored
under the register key, no derived `_HUMAN` key is added, and the loop
continues with the remaining registers unaffected. -/
theorem c9_restore_error_caught (read : Nat → Nat → Option (List Nat))
    (check : Bool) (k : String) (s : RegSpecR)
    (rest : List (String × RegSpecR)) (c0 : Nat)
    (ct : List (String × RegVal)) (ws : List Nat) (v : RegVal)
    (hresp : read s.register s.len = some ws)
    (hrest : restore_human_readable_content k v = .error ()) :
    List.lookup (k ++ "_HUMAN") (dinsert k v ct) =
      List.lookup (k ++ "_HUMAN") ct
    ∧ (hreg_decode s.len ws = some v →
      read_hregs_loop read check ((k, s) :: rest) c0 ct =
        read_hregs_loop read check rest
          (if check && py_ne (s.test.getD 0) v
              && ((s.test.getD 0) != (-1 : Int))
            then c0 + 1 else c0)
          (dinsert k v ct))
    ∧ (ireg_decode s.len ws = some v →
      read_iregs_loop read check ((k, s) :: rest) c0 ct =
        read_iregs_loop read check rest
          (if check && py_ne (s.test.getD 0) v
              && ((s.test.getD 0) != (-1 : Int))
            then c0 + 1 else c0)
          (dinsert k v ct)) := by
  refine ⟨?_, ?_, ?_⟩
  · exact lookup_dinsert_ne _ _ _ _ (Ne.symm (self_ne_append_human k))
  · intro hv
    simp [read_hregs_loop, hresp, hv, word_entry_tail, hrest]
  · intro hv
    simp [read_iregs_loop, hresp, hv, word_entry_tail, hrest]

/-- C9, witness: CHARGING_STATE_IREG decoded to 7 makes the restorer
raise; the raw 7 is stored, no `_HUMAN` key appears. -/
theorem c9_restore_error_caught_witness :
    List.lookup ("CHARGING_STATE_IREG" ++ "_HUMAN")
        (dinsert "CHARGING_STATE_IREG" (RegVal.int 7) []) =
      List.lookup ("CHARGING_STATE_IREG" ++ "_HUMAN") []
    ∧ (hreg_decode 1 [7] = some (RegVal.int 7) →
      read_hregs_loop (fun _ _ => some [7]) false
          [("CHARGING_STATE_IREG",
            { register := 0, len := 1, description := "", test := none })]
          0 [] =
        read_hregs_loop (fun _ _ => some [7]) false []
          (if false && py_ne ((Option.none (α := Int)).getD 0) (RegVal.int 7)
              && (((Option.none (α := Int)).getD 0) != (-1 : Int))
            then 0 + 1 else 0)
          (dinsert "CHARGING_STATE_IREG" (RegVal.int 7) []))
    ∧ (ireg_decode 1 [7] = some (RegVal.int 7) →
      read_iregs_loop (fun _ _ => some [7]) false
          [("CHARGING_STATE_IREG",
            { register := 0, len := 1, description := "", test := none })]
          0 [] =
        read_iregs_loop (fun _ _ => some [7]) false []
          (if false && py_ne ((Option.none (α := Int)).getD 0) (RegVal.int 7)
              && (((Option.none (α := Int)).getD 0) != (-1 : Int))
            then 0 + 1 else 0)
          (dinsert "CHARGING_STATE_IREG" (RegVal.int 7) [])) :=
  c9_restore_error_caught (fun _ _ => some [7]) false "CHARGING_STATE_IREG"
    { register := 0, len := 1, description := "", test := none }
    [] 0 [] [7] (RegVal.int 7) rfl rfl

lemma pyListGetStr_nat (l : List String) (n : Nat) :
    pyListGetStr l (n : Int) =
      match l.get? n with
      | some x => .ok x
      | none => .error () := by
  simp [pyListGetStr, Int.natCast_nonneg, Int.toNat_natCast]

/-- C8: the CHARGING_STATE_IREG restorer returns the labels A..F for the
integer indices 0..5, returns "unknown" for index exactly 6 (one past the
last real state), and raises (an uncaught IndexError) for every index
greater than 6. -/
theorem c8_charging_state_enum :
    (∀ i : Nat, i < 6 →
      restore_human_readable_content "CHARGING_STATE_IREG"
          (RegVal.int (i : Nat)) =
        .ok (List.getD ["A", "B", "C", "D", "E", "F"] i ""))
    ∧ restore_human_readable_content "CHARGING_STATE_IREG"
        (RegVal.int 6) = .ok "unknown"
    ∧ (∀ i : Nat, 6 < i →
      restore_human_readable_content "CHARGING_STATE_IREG"
          (RegVal.int (i : Nat)) = .error ()) := by
  refine ⟨?_, rfl, ?_⟩
  · intro i hi
    interval_cases i <;> rfl
  · intro i hi
    have hget : (["A", "B", "C", "D", "E", "F", "unknown"] :
        List String)[i]? = none := by
      apply List.getElem?_eq_none
      simp only [List.length_cons, List.length_nil]
      omega
    simp [restore_human_readable_content, asPyInt, pyListGetStr_nat, hget]

/-- C8, witness for the quantified parts at concrete indices. -/
theorem c8_charging_state_enum_witness :
    restore_human_readable_content "CHARGING_STATE_IREG" (RegVal.int 3) =
      .ok "D"
    ∧ restore_human_readable_content "CHARGING_STATE_IREG" (RegVal.int 6) =
      .ok "unknown"
    ∧ restore_human_readable_content "CHARGING_STATE_IREG" (RegVal.int 9) =
      .error () :=
  ⟨c8_charging_state_enum.1 3 (by decide),
   c8_charging_state_enum.2.1,
   c8_charging_state_enum.2.2 9 (by decide)⟩

/-- The register map of the C7 scenario: one IREGS entry,
DEVICE_MAC_IREG of length 3 at address 10. -/
def mac_read_map : RegisterMapR :=
  { COILS := none, HREGS := none, ISTS := none,
    IREGS := some [("DEVICE_MAC_IREG",
      { register := 10, len := 3, description := "MAC address",
        test := none })] }

/-- The transport of the C7 scenario: the input-register read at
address 10, count 3 returns the words [0x00A0, 0x4566, 0x4F40]. -/
def mac_transport : ModbusTransport :=
  { connectResult := true,
    readCoilsT := fun _ _ => none,
    readDiscreteInputsT := fun _ _ => none,
    readHoldingT := fun _ _ => none,
    readInputT := fun a c =>
      if a = 10 ∧ c = 3 then some [160, 17766, 20288] else none,
    writeCoilT := fun _ _ => false,
    writeRegisterT := fun _ _ => false }

/-- C7, counterexample: the full read stores the raw list under
DEVICE_MAC_IREG, but the derived human-readable string is
"a0:4566:4f40" — each whole word rendered as unpadded hex and
colon-joined — not the claimed "a0:45:66:40". -/
theorem c7_counterexample :
    read_all_registers true mac_transport (some true) mac_read_map false =
      .ok { content :=
              [("DEVICE_MAC_IREG_HUMAN", RegVal.str "a0:4566:4f40"),
               ("DEVICE_MAC_IREG", RegVal.intList [160, 17766, 20288])],
            conn := none, events := [LifeEvent.closeEvent] }
    ∧ "a0:4566:4f40" ≠ "a0:45:66:40" := by
  exact ⟨rfl, by decide⟩

/-- C7, amended: for that register map and transport, the ResultSet maps
DEVICE_MAC_IREG to the raw word list [0x00A0, 0x4566, 0x4F40] and
DEVICE_MAC_IREG_HUMAN to exactly "a0:4566:4f40". -/
theorem c7_amended_mac_resultset :
    ∃ r, read_all_registers true mac_transport (some true) mac_read_map
        false = .ok r
      ∧ List.lookup "DEVICE_MAC_IREG" r.content =
          some (RegVal.intList [160, 17766, 20288])
      ∧ List.lookup "DEVICE_MAC_IREG_HUMAN" r.content =
          some (RegVal.str "a0:4566:4f40") := by
  exact ⟨_, rfl, rfl, rfl⟩

/-- A transport whose every read errors and every write succeeds; used to
exercise the walker's connection lifecycle on its own. -/
def triv_transport : ModbusTransport :=
  { connectResult := true,
    readCoilsT := fun _ _ => none,
    readDiscreteInputsT := fun _ _ => none,
    readHoldingT := fun _ _ => none,
    readInputT := fun _ _ => none,
    writeCoilT := fun _ _ => false,
    writeRegisterT := fun _ _ => false }

def triv_read_map : RegisterMapR :=
  { COILS := none, HREGS := none, ISTS := none, IREGS := none }

def triv_write_map : WriteRegisterMapR :=
  { COILSW := none, HREGSW := none, ISTSpresent := false,
    IREGSpresent := false }

/-- C10, counterexample: a full read cycle started with a connected
transport ends with the walker itself having called `close()` on the
client and the connection state changed (from `some true` to `none`), so
the walker does open/close the connection. -/
theorem c10_counterexample :
    read_all_registers true triv_transport (some true) triv_read_map
        false =
      .ok { content := [], conn := none, events := [LifeEvent.closeEvent] }
    ∧ ((none : Option Bool) ≠ some true)
    ∧ LifeEvent.closeEvent ∈ [LifeEvent.closeEvent] := by
  exact ⟨rfl, by decide, by decide⟩

/-- C10, amended: the Bank Walker manages the connection itself — every
completed read or write cycle started with a connected transport ends by
invoking the client's `close()` (the one lifecycle event of the cycle)
and leaves the connection state unset (`None`); and a cycle started with
the connection state `False` first invokes `connect()`. -/
theorem c10_amended_lifecycle (client : ModbusTransport)
    (m : RegisterMapR) (check : Bool) (wm : WriteRegisterMapR)
    (r : ReadAllResult) (w : WriteAllResult) :
    (read_all_registers true client (some true) m check = .ok r →
      r.conn = none ∧ r.events = [LifeEvent.closeEvent])
    ∧ (write_all_registers true client (some true) wm = .ok w →
      w.conn = none ∧ w.events = [LifeEvent.closeEvent])
    ∧ (∀ r2, read_all_registers true client (some false) m check =
        .ok r2 → r2.events.head? = some LifeEvent.connectEvent) := by
  refine ⟨?_, ?_, ?_⟩
  · intro h
    cases hb : read_all_banks client m check with
    | error e =>
      simp [read_all_registers, hb] at h
    | ok rr =>
      simp [read_all_registers, hb] at h
      subst h
      exact ⟨rfl, rfl⟩
  · intro h
    simp [write_all_registers] at h
    subst h
    exact ⟨rfl, rfl⟩
  · intro r2 h
    cases hcr : client.connectResult with
    | false =>
      simp [read_all_registers, hcr] at h
      subst h
      rfl
    | true =>
      cases hb : read_all_banks client m check with
      | error e =>
        simp [read_all_registers, hcr, hb] at h
      | ok rr =>
        simp [read_all_registers, hcr, hb] at h
        subst h
        rfl

/-- C10, witness for the amended theorem at a concrete input. -/
theorem c10_amended_lifecycle_witness :
    ({ content := [], conn := none, events := [LifeEvent.closeEvent] } :
        ReadAllResult).conn = none
    ∧ ({ content := [], conn := none,
          events := [LifeEvent.closeEvent] } : ReadAllResult).events =
        [LifeEvent.closeEvent]
    ∧ ({ log := [], conn := none, events := [LifeEvent.closeEvent] } :
        WriteAllResult).conn = none
    ∧ ({ log := [], conn := none,
          events := [LifeEvent.closeEvent] } : WriteAllResult).events =
        [LifeEvent.closeEvent] := by
  have hr := (c10_amended_lifecycle triv_transport triv_read_map false
    triv_write_map
    { content := [], conn := none, events := [LifeEvent.closeEvent] }
    { log := [], conn := none, events := [LifeEvent.closeEvent] })
  exact ⟨(hr.1 rfl).1, (hr.1 rfl).2, (hr.2.1 rfl).1, (hr.2.1 rfl).2⟩
